import Mathlib

/-!
Shallow embedding of `src/contracts/CrisisChatFHE.sol`.

Modelling conventions:
* `euint32` sealed handles are opaque `Nat` tokens; the contract never reads
  their values, it only forwards them to the external FHE oracle.
* Solidity mappings are total functions with the Solidity zero-value as
  default (`emZero` for `EncryptedMessage`, `daZero` for `DecryptedAlert`).
* A reverting `require` is an `Except.error`; the EVM semantics that a revert
  leaves storage untouched is captured by `execTx`, which keeps the pre-state
  on error.
* External collaborators are parameters of the entry points: the oracle
  request id returned by `FHE.requestDecryption` is an environment-chosen
  `reqId`, `FHE.checkSignatures` is the boolean `proofOk` (revert with
  `InvalidProof` when false), `abi.decode` of the cleartexts is the already
  decoded `Bool` / `String` argument, and `block.timestamp` is a parameter.
-/

structure EncryptedMessage where
  id : Nat
  encryptedContent : Nat
  encryptedRiskScore : Nat
  timestamp : Nat
  isHighRisk : Bool
deriving Repr, DecidableEq

structure DecryptedAlert where
  content : String
  riskScore : Nat
  isDecrypted : Bool
deriving Repr, DecidableEq

/-- Solidity zero value of `EncryptedMessage` (mapping default). -/
def emZero : EncryptedMessage := ⟨0, 0, 0, 0, false⟩

/-- Solidity zero value of `DecryptedAlert` (mapping default). -/
def daZero : DecryptedAlert := ⟨"", 0, false⟩

/-- Contract storage of `CrisisChatFHE`. -/
structure State where
  messageCount : Nat
  encryptedMessages : Nat → EncryptedMessage
  decryptedAlerts : Nat → DecryptedAlert
  encryptedThreshold : Nat
  requestToMessageId : Nat → Nat
  counselor : Nat
  thresholdSet : Bool

/-- Revert reasons appearing in the contract (`require` strings), plus the
`InvalidProof` revert raised inside the external `FHE.checkSignatures`. -/
inductive Err where
  | Unauthorized
  | ThresholdAlreadySet
  | InvalidRequest
  | NotHighRisk
  | AlreadyDecrypted
  | InvalidProof
deriving Repr, DecidableEq

/-- Constructor: `counselor = msg.sender`, all storage zero-initialized. -/
def initState (deployer : Nat) : State :=
  { messageCount := 0
    encryptedMessages := fun _ => emZero
    decryptedAlerts := fun _ => daZero
    encryptedThreshold := 0
    requestToMessageId := fun _ => 0
    counselor := deployer
    thresholdSet := false }

/-- `setEncryptedThreshold` (lines 49-53): `onlyCounselor`, then
`require(!thresholdSet)`, then assigns the threshold once. -/
def setEncryptedThreshold (sender : Nat) (s : State) (t : Nat) : Except Err State :=
  if sender = s.counselor then
    if s.thresholdSet then .error .ThresholdAlreadySet
    else .ok { s with encryptedThreshold := t, thresholdSet := true }
  else .error .Unauthorized

/-- `_assessRisk` (lines 82-93): computes an ephemeral `FHE.gt` handle and
issues an oracle decryption request; the only storage write is registering
the environment-returned request id against the message id. -/
def assessRisk (s : State) (messageId reqId : Nat) : State :=
  { s with requestToMessageId := fun k => if k = reqId then messageId else s.requestToMessageId k }

/-- `submitEncryptedMessage` (lines 56-79): unconditionally increments
`messageCount`, stores the new record with `isHighRisk = false` and a fresh
zero alert, then calls `_assessRisk`.  The source contains no `require` at
all (in particular no `thresholdSet` check), so the operation cannot fail;
it returns the allocated id together with the new state. -/
def submitEncryptedMessage (s : State) (encryptedContent encryptedRiskScore timestamp reqId : Nat) :
    Nat × State :=
  let newId := s.messageCount + 1
  let s1 : State :=
    { s with
      messageCount := newId
      encryptedMessages := fun k =>
        if k = newId then ⟨newId, encryptedContent, encryptedRiskScore, timestamp, false⟩
        else s.encryptedMessages k
      decryptedAlerts := fun k =>
        if k = newId then ⟨"", 0, false⟩ else s.decryptedAlerts k }
  (newId, assessRisk s1 newId reqId)

/-- `handleRiskAssessment` (lines 96-113): looks the message up in the
request ledger, `require(messageId != 0)`, verifies the oracle proof, then
writes only `encryptedMessages[messageId].isHighRisk`.  Note the source
never deletes `requestToMessageId[requestId]`. -/
def handleRiskAssessment (s : State) (requestId : Nat) (proofOk isHighRisk : Bool) :
    Except Err State :=
  let messageId := s.requestToMessageId requestId
  if messageId = 0 then .error .InvalidRequest
  else if proofOk then
    .ok { s with encryptedMessages := fun k =>
      if k = messageId then { s.encryptedMessages messageId with isHighRisk := isHighRisk }
      else s.encryptedMessages k }
  else .error .InvalidProof

/-- `requestAlertDecryption` (lines 116-128): `onlyCounselor`, requires the
record to be high-risk and the alert not yet decrypted, then registers a
fresh oracle request id for the content reveal. -/
def requestAlertDecryption (sender : Nat) (s : State) (messageId reqId : Nat) :
    Except Err State :=
  if sender = s.counselor then
    if (s.encryptedMessages messageId).isHighRisk then
      if (s.decryptedAlerts messageId).isDecrypted then .error .AlreadyDecrypted
      else .ok { s with requestToMessageId := fun k =>
        if k = reqId then messageId else s.requestToMessageId k }
    else .error .NotHighRisk
  else .error .Unauthorized

/-- `handleAlertDecryption` (lines 131-152): ledger lookup,
`require(messageId != 0)`, `require(isHighRisk)`, proof verification, then
overwrites the alert with the decoded content and `isDecrypted = true`.
The source has no `isDecrypted` re-check here and never deletes the ledger
entry. -/
def handleAlertDecryption (s : State) (requestId : Nat) (proofOk : Bool) (content : String) :
    Except Err State :=
  let messageId := s.requestToMessageId requestId
  if messageId = 0 then .error .InvalidRequest
  else if (s.encryptedMessages messageId).isHighRisk then
    if proofOk then
      .ok { s with decryptedAlerts := fun k =>
        if k = messageId then ⟨content, 0, true⟩ else s.decryptedAlerts k }
    else .error .InvalidProof
  else .error .NotHighRisk

/-- `getDecryptedAlert` (lines 155-161): `onlyCounselor`, returns the pair
`(content, isDecrypted)` of the stored alert (mapping default for ids that
were never written). -/
def getDecryptedAlert (sender : Nat) (s : State) (messageId : Nat) :
    Except Err (String × Bool) :=
  if sender = s.counselor then
    .ok ((s.decryptedAlerts messageId).content, (s.decryptedAlerts messageId).isDecrypted)
  else .error .Unauthorized

/-- The auto-generated public getter of the `encryptedMessages` mapping:
returns the stored struct, the zero struct for ids never written. -/
def getMessage (s : State) (messageId : Nat) : EncryptedMessage :=
  s.encryptedMessages messageId

/-- One external transaction against the contract, with every
environment-supplied datum (sender, oracle request id, proof validity,
decoded cleartext, timestamp) as a field. -/
inductive Tx where
  | setThresholdA (sender t : Nat)
  | submitA (content score timestamp reqId : Nat)
  | riskCallbackA (requestId : Nat) (proofOk isHighRisk : Bool)
  | revealRequestA (sender messageId reqId : Nat)
  | revealCallbackA (requestId : Nat) (proofOk : Bool) (content : String)

def exec (s : State) : Tx → Except Err State
  | .setThresholdA sender t => setEncryptedThreshold sender s t
  | .submitA c sc ts r => .ok (submitEncryptedMessage s c sc ts r).2
  | .riskCallbackA r p b => handleRiskAssessment s r p b
  | .revealRequestA sender m r => requestAlertDecryption sender s m r
  | .revealCallbackA r p c => handleAlertDecryption s r p c

/-- EVM transaction semantics: a reverted call leaves storage unchanged. -/
def execTx (s : State) (a : Tx) : State :=
  match exec s a with
  | .ok s' => s'
  | .error _ => s

def execAll (s : State) (l : List Tx) : State := l.foldl execTx s

/-- States reachable from deployment by any sequence of transactions. -/
def Reachable (deployer : Nat) (s : State) : Prop :=
  ∃ l, execAll (initState deployer) l = s

/-! ### Characterizations of the successful executions -/

theorem setEncryptedThreshold_ok {sender t : Nat} {s s' : State}
    (h : setEncryptedThreshold sender s t = .ok s') :
    sender = s.counselor ∧ s.thresholdSet = false ∧
    s' = { s with encryptedThreshold := t, thresholdSet := true } := by
  by_cases hc : sender = s.counselor
  · by_cases ht : s.thresholdSet
    · simp [setEncryptedThreshold, hc, ht] at h
    · simp [setEncryptedThreshold, hc, ht] at h
      exact ⟨hc, by simpa using ht, h.symm⟩
  · simp [setEncryptedThreshold, hc] at h

theorem handleRiskAssessment_ok {s s' : State} {r : Nat} {p b : Bool}
    (h : handleRiskAssessment s r p b = .ok s') :
    s.requestToMessageId r ≠ 0 ∧ p = true ∧
    s' = { s with encryptedMessages := fun k =>
      if k = s.requestToMessageId r then
        { s.encryptedMessages (s.requestToMessageId r) with isHighRisk := b }
      else s.encryptedMessages k } := by
  by_cases hm : s.requestToMessageId r = 0
  · simp [handleRiskAssessment, hm] at h
  · by_cases hp : p = true
    · simp [handleRiskAssessment, hm, hp] at h
      exact ⟨hm, hp, h.symm⟩
    · simp [handleRiskAssessment, hm, hp] at h

theorem requestAlertDecryption_ok {sender mid reqId : Nat} {s s' : State}
    (h : requestAlertDecryption sender s mid reqId = .ok s') :
    sender = s.counselor ∧ (s.encryptedMessages mid).isHighRisk = true ∧
    (s.decryptedAlerts mid).isDecrypted = false ∧
    s' = { s with requestToMessageId := fun k =>
      if k = reqId then mid else s.requestToMessageId k } := by
  by_cases hc : sender = s.counselor
  · by_cases hr : (s.encryptedMessages mid).isHighRisk = true
    · by_cases hd : (s.decryptedAlerts mid).isDecrypted = true
      · simp [requestAlertDecryption, hc, hr, hd] at h
      · simp [requestAlertDecryption, hc, hr, hd] at h
        exact ⟨hc, hr, by simpa using hd, h.symm⟩
    · simp [requestAlertDecryption, hc, hr] at h
  · simp [requestAlertDecryption, hc] at h

theorem handleAlertDecryption_ok {s s' : State} {r : Nat} {p : Bool} {content : String}
    (h : handleAlertDecryption s r p content = .ok s') :
    s.requestToMessageId r ≠ 0 ∧
    (s.encryptedMessages (s.requestToMessageId r)).isHighRisk = true ∧ p = true ∧
    s' = { s with decryptedAlerts := fun k =>
      if k = s.requestToMessageId r then ⟨content, 0, true⟩ else s.decryptedAlerts k } := by
  by_cases hm : s.requestToMessageId r = 0
  · simp [handleAlertDecryption, hm] at h
  · by_cases hr : (s.encryptedMessages (s.requestToMessageId r)).isHighRisk = true
    · by_cases hp : p = true
      · simp [handleAlertDecryption, hm, hr, hp] at h
        exact ⟨hm, hr, hp, h.symm⟩
      · simp [handleAlertDecryption, hm, hr, hp] at h
    · simp [handleAlertDecryption, hm, hr] at h

/-! ### Concrete demonstration states -/

/-- Deployment by 5, threshold set, one message submitted with oracle
request id 42: `requestToMessageId 42 = 1`. -/
def replayDemoState : State :=
  execAll (initState 5) [.setThresholdA 5 7, .submitA 10 20 30 42]

/-- As `replayDemoState`, then record 1 was marked high-risk (request 42),
an alert reveal was requested (request 43) and resolved with content
"first": the alert of record 1 is decrypted. -/
def revealedDemoState : State :=
  execAll (initState 5)
    [.setThresholdA 5 7, .submitA 10 20 30 42, .riskCallbackA 42 true true,
     .revealRequestA 5 1 43, .revealCallbackA 43 true "first"]

/-! ### Claim theorems -/

/-- C1: the claim says a second `handleRiskAssessment` for an already
resolved requestId fails with UnknownRequest.  The code never deletes
`requestToMessageId[requestId]`, so after a successful resolution of
request 42 a second invocation with the same requestId is accepted again
and can even flip the risk flag back — the at-most-once guarantee does not
hold in the code. -/
theorem risk_callback_replay_accepted :
    ∃ s1 s2,
      handleRiskAssessment replayDemoState 42 true true = .ok s1 ∧
      (s1.encryptedMessages 1).isHighRisk = true ∧
      handleRiskAssessment s1 42 true false = .ok s2 ∧
      (s2.encryptedMessages 1).isHighRisk = false :=
  ⟨_, _, rfl, rfl, rfl, rfl⟩

/-- C2: the claim says `submitEncryptedMessage` before any threshold is
configured fails with ThresholdNotSet and creates no record.  The code has
no `thresholdSet` check at all: submitting against the freshly deployed
state (threshold unset) succeeds, allocates identifier 1, advances the
counter and registers the oracle request. -/
theorem submit_without_threshold_accepted :
    (initState 5).thresholdSet = false ∧
    (submitEncryptedMessage (initState 5) 10 20 30 42).1 = 1 ∧
    (submitEncryptedMessage (initState 5) 10 20 30 42).2.messageCount = 1 ∧
    ((submitEncryptedMessage (initState 5) 10 20 30 42).2.encryptedMessages 1).id = 1 ∧
    (submitEncryptedMessage (initState 5) 10 20 30 42).2.requestToMessageId 42 = 1 :=
  ⟨rfl, rfl, rfl, rfl, rfl⟩

/-- C5 counterexample: the claim says every caller, privileged or not, gets
NotHighRisk on a never-high-risk record.  A non-privileged caller (99) is
rejected by the `onlyCounselor` modifier with Unauthorized before the risk
check is reached. -/
theorem requestReveal_unauthorized_counterexample :
    ((initState 5).encryptedMessages 1).isHighRisk = false ∧
    requestAlertDecryption 99 (initState 5) 1 7 = .error .Unauthorized ∧
    Err.Unauthorized ≠ Err.NotHighRisk :=
  ⟨rfl, rfl, by decide⟩

/-- C5 amended: `requestAlertDecryption` on a record that is not high-risk
never succeeds: the counselor gets NotHighRisk, every other caller gets
Unauthorized (the authorization check precedes the risk check). -/
theorem requestReveal_not_high_risk_never_succeeds (sender : Nat) (s : State) (mid reqId : Nat)
    (h : (s.encryptedMessages mid).isHighRisk = false) :
    requestAlertDecryption sender s mid reqId =
      .error (if sender = s.counselor then .NotHighRisk else .Unauthorized) := by
  by_cases hc : sender = s.counselor <;> simp [requestAlertDecryption, hc, h]

theorem requestReveal_not_high_risk_witness :
    requestAlertDecryption 5 (initState 5) 1 7 = .error .NotHighRisk :=
  requestReveal_not_high_risk_never_succeeds 5 (initState 5) 1 7 rfl

/-- C6: the claim says writing the alert content fails with AlreadyRevealed
when `revealed` is already true.  `handleAlertDecryption` has no
`isDecrypted` check (only `requestAlertDecryption` has one), and the ledger
entry for request 43 is still present, so after the alert of record 1 was
revealed with content "first", a second callback for the same request is
accepted and overwrites the content with "second". -/
theorem alert_content_rewrite_accepted :
    (revealedDemoState.decryptedAlerts 1).isDecrypted = true ∧
    (revealedDemoState.decryptedAlerts 1).content = "first" ∧
    ∃ s', handleAlertDecryption revealedDemoState 43 true "second" = .ok s' ∧
      (s'.decryptedAlerts 1).content = "second" ∧
      (s'.decryptedAlerts 1).isDecrypted = true :=
  ⟨rfl, rfl, _, rfl, rfl, rfl⟩

/-- C9 counterexample: the claim says reading a never-allocated record or
its alert fails with NotFound.  In the freshly deployed state (no record
was ever allocated) the public mapping getter returns the zero struct for
id 7 and `getDecryptedAlert` returns `("", false)` — both reads succeed,
no NotFound error exists in the contract. -/
theorem unallocated_read_returns_default :
    (initState 5).messageCount = 0 ∧
    getMessage (initState 5) 7 = emZero ∧
    getDecryptedAlert 5 (initState 5) 7 = .ok ("", false) :=
  ⟨rfl, rfl, rfl⟩

/-- C10: a successful `handleRiskAssessment` for a registered requestId
mapping to record `mid` mutates exactly the `isHighRisk` flag of record
`mid`: all other fields of that record, every other record, every alert,
the counter, the threshold, the counselor and the whole request ledger are
unchanged. -/
theorem handleRisk_frame (s s' : State) (reqId mid : Nat) (p b : Bool)
    (hm : s.requestToMessageId reqId = mid)
    (h : handleRiskAssessment s reqId p b = .ok s') :
    mid ≠ 0 ∧
    s'.encryptedMessages mid = { s.encryptedMessages mid with isHighRisk := b } ∧
    (∀ k, k ≠ mid → s'.encryptedMessages k = s.encryptedMessages k) ∧
    s'.decryptedAlerts = s.decryptedAlerts ∧
    s'.messageCount = s.messageCount ∧
    s'.encryptedThreshold = s.encryptedThreshold ∧
    s'.thresholdSet = s.thresholdSet ∧
    s'.counselor = s.counselor ∧
    s'.requestToMessageId = s.requestToMessageId := by
  obtain ⟨h0, hp, hs⟩ := handleRiskAssessment_ok h
  subst hm
  subst hs
  exact ⟨h0, by simp, fun k hk => by simp [hk], rfl, rfl, rfl, rfl, rfl, rfl⟩

theorem handleRisk_frame_witness :
    ∃ s', handleRiskAssessment replayDemoState 42 true true = .ok s' ∧
      s'.messageCount = replayDemoState.messageCount ∧
      s'.decryptedAlerts = replayDemoState.decryptedAlerts := by
  refine ⟨_, rfl, ?_, ?_⟩
  · exact (handleRisk_frame replayDemoState _ 42 1 true true rfl rfl).2.2.2.2.1
  · exact (handleRisk_frame replayDemoState _ 42 1 true true rfl rfl).2.2.2.1

/-- C3: on a registered requestId, a callback whose proof fails
verification reverts with InvalidProof, the transaction leaves the state
(records, alerts and the pending-request ledger) unchanged, and a later
callback for the same requestId with a valid proof succeeds; the same
holds for the alert-decryption callback when the resolved record is
high-risk. -/
theorem invalid_proof_leaves_request_pending (s : State) (reqId : Nat) (b b' : Bool)
    (content : String) (hreg : s.requestToMessageId reqId ≠ 0) :
    handleRiskAssessment s reqId false b = .error .InvalidProof ∧
    execTx s (.riskCallbackA reqId false b) = s ∧
    (∃ s', handleRiskAssessment s reqId true b' = .ok s') ∧
    ((s.encryptedMessages (s.requestToMessageId reqId)).isHighRisk = true →
      handleAlertDecryption s reqId false content = .error .InvalidProof ∧
      execTx s (.revealCallbackA reqId false content) = s ∧
      ∃ s', handleAlertDecryption s reqId true content = .ok s') := by
  have h1 : handleRiskAssessment s reqId false b = .error .InvalidProof := by
    simp [handleRiskAssessment, hreg]
  have hok : handleRiskAssessment s reqId true b' =
      .ok { s with encryptedMessages := fun k =>
        if k = s.requestToMessageId reqId then
          { s.encryptedMessages (s.requestToMessageId reqId) with isHighRisk := b' }
        else s.encryptedMessages k } := by
    simp [handleRiskAssessment, hreg]
  refine ⟨h1, by simp [execTx, exec, h1], ⟨_, hok⟩, ?_⟩
  intro hhr
  have h2 : handleAlertDecryption s reqId false content = .error .InvalidProof := by
    simp [handleAlertDecryption, hreg, hhr]
  have hok2 : handleAlertDecryption s reqId true content =
      .ok { s with decryptedAlerts := fun k =>
        if k = s.requestToMessageId reqId then ⟨content, 0, true⟩
        else s.decryptedAlerts k } := by
    simp [handleAlertDecryption, hreg, hhr]
  exact ⟨h2, by simp [execTx, exec, h2], _, hok2⟩

theorem invalid_proof_leaves_request_pending_witness :
    handleRiskAssessment (submitEncryptedMessage (initState 5) 10 20 30 42).2 42 false true =
      .error .InvalidProof :=
  (invalid_proof_leaves_request_pending (submitEncryptedMessage (initState 5) 10 20 30 42).2
    42 true true "x" (by decide)).1

/-! ### Invariants of reachable states -/

/-- Storage invariant: the counselor is the deployer, every ledger entry
points at most at the last allocated id, ids beyond `messageCount` (and the
reserved id 0) still hold the mapping zero values, and an undecrypted alert
has empty content. -/
def StateInv (d : Nat) (s : State) : Prop :=
  s.counselor = d ∧
  (∀ r, s.requestToMessageId r ≤ s.messageCount) ∧
  (∀ id, s.messageCount < id → s.encryptedMessages id = emZero ∧ s.decryptedAlerts id = daZero) ∧
  (s.encryptedMessages 0 = emZero ∧ s.decryptedAlerts 0 = daZero) ∧
  (∀ id, (s.decryptedAlerts id).isDecrypted = false → (s.decryptedAlerts id).content = "")

theorem stateInv_initState (d : Nat) : StateInv d (initState d) :=
  ⟨rfl, fun _ => Nat.le_refl 0, fun _ _ => ⟨rfl, rfl⟩, ⟨rfl, rfl⟩, fun _ _ => rfl⟩

theorem stateInv_exec_ok {d : Nat} {s s' : State} (hInv : StateInv d s) {a : Tx}
    (h : exec s a = .ok s') : StateInv d s' := by
  obtain ⟨hc, hreq, hrec, hzero, hcont⟩ := hInv
  cases a with
  | setThresholdA sender t =>
    simp only [exec] at h
    obtain ⟨-, -, hs⟩ := setEncryptedThreshold_ok h
    subst hs
    exact ⟨hc, hreq, hrec, hzero, hcont⟩
  | submitA c sc ts r =>
    simp only [exec] at h
    injection h with h
    subst h
    refine ⟨hc, ?_, ?_, ?_, ?_⟩
    · intro rr
      by_cases hrr : rr = r
      · simp [submitEncryptedMessage, assessRisk, hrr]
      · simp [submitEncryptedMessage, assessRisk, hrr]
        exact Nat.le_succ_of_le (hreq rr)
    · intro id hid
      simp only [submitEncryptedMessage, assessRisk] at hid ⊢
      have h1 : id ≠ s.messageCount + 1 := by omega
      simp only [h1, if_false]
      exact hrec id (by omega)
    · have h1 : (0 : Nat) ≠ s.messageCount + 1 := by omega
      simp only [submitEncryptedMessage, assessRisk, h1, if_false]
      exact hzero
    · intro id hdec
      by_cases h1 : id = s.messageCount + 1
      · simp [submitEncryptedMessage, assessRisk, h1]
      · simp only [submitEncryptedMessage, assessRisk, h1, if_false] at hdec ⊢
        exact hcont id hdec
  | riskCallbackA r p b =>
    simp only [exec] at h
    obtain ⟨hm, -, hs⟩ := handleRiskAssessment_ok h
    subst hs
    have hmle : s.requestToMessageId r ≤ s.messageCount := hreq r
    refine ⟨hc, hreq, ?_, ?_, hcont⟩
    · intro id hid
      simp only at hid
      have h1 : id ≠ s.requestToMessageId r := by omega
      simp only [h1, if_false]
      exact hrec id hid
    · have h1 : (0 : Nat) ≠ s.requestToMessageId r := fun he => hm he.symm
      simp only [h1, if_false]
      exact hzero
  | revealRequestA sender m r =>
    simp only [exec] at h
    obtain ⟨-, hhr, -, hs⟩ := requestAlertDecryption_ok h
    subst hs
    have hmle : m ≤ s.messageCount := by
      by_contra hgt
      have hd := (hrec m (by omega)).1
      rw [hd] at hhr
      simp [emZero] at hhr
    refine ⟨hc, ?_, hrec, hzero, hcont⟩
    intro rr
    by_cases hrr : rr = r
    · simp [hrr]
      exact hmle
    · simp [hrr]
      exact hreq rr
  | revealCallbackA r p cont =>
    simp only [exec] at h
    obtain ⟨hm, -, -, hs⟩ := handleAlertDecryption_ok h
    subst hs
    have hmle : s.requestToMessageId r ≤ s.messageCount := hreq r
    refine ⟨hc, hreq, ?_, ?_, ?_⟩
    · intro id hid
      simp only at hid
      have h1 : id ≠ s.requestToMessageId r := by omega
      simp only [h1, if_false]
      exact hrec id hid
    · have h1 : (0 : Nat) ≠ s.requestToMessageId r := fun he => hm he.symm
      simp only [h1, if_false]
      exact hzero
    · intro id hdec
      by_cases h1 : id = s.requestToMessageId r
      · simp only [h1, if_true] at hdec
        simp at hdec
      · simp only [h1, if_false] at hdec ⊢
        exact hcont id hdec

theorem stateInv_execTx {d : Nat} {s : State} (hInv : StateInv d s) (a : Tx) :
    StateInv d (execTx s a) := by
  rcases heq : exec s a with e | s'
  · simpa [execTx, heq] using hInv
  · simpa [execTx, heq] using stateInv_exec_ok hInv heq

theorem stateInv_execAll {d : Nat} : ∀ (l : List Tx) (s : State), StateInv d s → StateInv d (execAll s l)
  | [], _, h => h
  | a :: l, s, h => stateInv_execAll l (execTx s a) (stateInv_execTx h a)

theorem reachable_stateInv {d : Nat} {s : State} (h : Reachable d s) : StateInv d s := by
  obtain ⟨l, hl⟩ := h
  exact hl ▸ stateInv_execAll l (initState d) (stateInv_initState d)

/-- C7: in every reachable state, `getDecryptedAlert` invoked by the
counselor returns the pair `(content, revealed)` of the record's alert,
and whenever `revealed` is false the returned content is empty — for every
id, in particular for records already marked high-risk: only the reveal
state gates content visibility. -/
theorem readAlert_reveal_gates_content (d : Nat) (s : State) (h : Reachable d s) (mid : Nat) :
    ∃ content revealed,
      getDecryptedAlert d s mid = .ok (content, revealed) ∧
      (revealed = false → content = "") := by
  obtain ⟨hc, -, -, -, hcont⟩ := reachable_stateInv h
  refine ⟨(s.decryptedAlerts mid).content, (s.decryptedAlerts mid).isDecrypted, ?_, hcont mid⟩
  simp [getDecryptedAlert, hc]

theorem readAlert_reveal_gates_content_witness :
    ∃ content revealed,
      getDecryptedAlert 5 (initState 5) 1 = .ok (content, revealed) ∧
      (revealed = false → content = "") :=
  readAlert_reveal_gates_content 5 (initState 5) ⟨[], rfl⟩ 1

/-! ### Threshold immutability -/

theorem execTx_threshold_frozen (s : State) (a : Tx) (h : s.thresholdSet = true) :
    (execTx s a).thresholdSet = true ∧
    (execTx s a).encryptedThreshold = s.encryptedThreshold := by
  rcases heq : exec s a with e | s'
  · simp [execTx, heq, h]
  · rw [show execTx s a = s' by simp [execTx, heq]]
    cases a with
    | setThresholdA sender t =>
      simp only [exec] at heq
      obtain ⟨-, hts, -⟩ := setEncryptedThreshold_ok heq
      simp [h] at hts
    | submitA c sc ts r =>
      simp only [exec] at heq
      injection heq with heq
      subst heq
      exact ⟨h, rfl⟩
    | riskCallbackA r p b =>
      simp only [exec] at heq
      obtain ⟨-, -, hs⟩ := handleRiskAssessment_ok heq
      subst hs
      exact ⟨h, rfl⟩
    | revealRequestA sender m r =>
      simp only [exec] at heq
      obtain ⟨-, -, -, hs⟩ := requestAlertDecryption_ok heq
      subst hs
      exact ⟨h, rfl⟩
    | revealCallbackA r p cont =>
      simp only [exec] at heq
      obtain ⟨-, -, -, hs⟩ := handleAlertDecryption_ok heq
      subst hs
      exact ⟨h, rfl⟩

theorem execAll_threshold_frozen (s : State) (l : List Tx) (h : s.thresholdSet = true) :
    (execAll s l).thresholdSet = true ∧
    (execAll s l).encryptedThreshold = s.encryptedThreshold := by
  induction l generalizing s with
  | nil => exact ⟨h, rfl⟩
  | cons a l ih =>
    have h1 := execTx_threshold_frozen s a h
    have h2 := ih (execTx s a) h1.1
    exact ⟨h2.1, h2.2.trans h1.2⟩

/-- C8: the threshold is assigned at most once and only by the counselor:
a non-counselor caller always gets Unauthorized; once `thresholdSet` holds,
a further counselor call fails with "Threshold already set"; a successful
call can only come from the counselor on an unset threshold and assigns
it; and after any sequence of transactions from a state with the threshold
set, the flag and the threshold value are unchanged. -/
theorem threshold_set_once_and_immutable (s s' : State) (sender t : Nat) (l : List Tx) :
    (sender ≠ s.counselor → setEncryptedThreshold sender s t = .error .Unauthorized) ∧
    (s.thresholdSet = true → setEncryptedThreshold s.counselor s t = .error .ThresholdAlreadySet) ∧
    (setEncryptedThreshold sender s t = .ok s' →
      sender = s.counselor ∧ s.thresholdSet = false ∧
      s'.thresholdSet = true ∧ s'.encryptedThreshold = t) ∧
    (s.thresholdSet = true →
      (execAll s l).thresholdSet = true ∧
      (execAll s l).encryptedThreshold = s.encryptedThreshold) := by
  refine ⟨?_, ?_, ?_, fun h => execAll_threshold_frozen s l h⟩
  · intro hne
    simp [setEncryptedThreshold, hne]
  · intro hts
    simp [setEncryptedThreshold, hts]
  · intro hok
    obtain ⟨hc, hts, hs⟩ := setEncryptedThreshold_ok hok
    subst hs
    exact ⟨hc, hts, rfl, rfl⟩

/-- Deployment by 3 with the threshold flag already raised. -/
def thresholdSetDemoState : State := { initState 3 with thresholdSet := true }

theorem threshold_set_once_witness :
    setEncryptedThreshold 4 (initState 3) 9 = .error .Unauthorized ∧
    setEncryptedThreshold 3 thresholdSetDemoState 9 = .error .ThresholdAlreadySet ∧
    ({ initState 3 with encryptedThreshold := 9, thresholdSet := true } : State).encryptedThreshold = 9 ∧
    (execAll thresholdSetDemoState [.submitA 1 2 3 4]).thresholdSet = true := by
  refine ⟨?_, ?_, ?_, ?_⟩
  · exact (threshold_set_once_and_immutable (initState 3) (initState 3) 4 9 []).1 (by decide)
  · exact (threshold_set_once_and_immutable thresholdSetDemoState thresholdSetDemoState 3 9 []).2.1 rfl
  · exact ((threshold_set_once_and_immutable (initState 3)
      { initState 3 with encryptedThreshold := 9, thresholdSet := true } 3 9 []).2.2.1 rfl).2.2.2
  · exact ((threshold_set_once_and_immutable thresholdSetDemoState thresholdSetDemoState 3 9
      [.submitA 1 2 3 4]).2.2.2 rfl).1

/-- C9 amended: in every reachable state, reading a never-allocated id
(the reserved id 0 or any id beyond `messageCount`) does not fail: the
record read returns the zero struct and the alert read returns
`("", false)` — absence is signalled by the zero sentinel, not by a
NotFound error. -/
theorem unallocated_ids_read_zero (d : Nat) (s : State) (h : Reachable d s) (id : Nat)
    (hid : id = 0 ∨ s.messageCount < id) :
    getMessage s id = emZero ∧ getDecryptedAlert d s id = .ok ("", false) := by
  obtain ⟨hc, -, hrec, hzero, -⟩ := reachable_stateInv h
  have halert : s.encryptedMessages id = emZero ∧ s.decryptedAlerts id = daZero := by
    rcases hid with h0 | hgt
    · subst h0
      exact hzero
    · exact hrec id hgt
  refine ⟨halert.1, ?_⟩
  simp [getDecryptedAlert, hc, halert.2, daZero]

theorem unallocated_ids_read_zero_witness :
    getMessage (initState 5) 3 = emZero ∧
    getDecryptedAlert 5 (initState 5) 3 = .ok ("", false) :=
  unallocated_ids_read_zero 5 (initState 5) ⟨[], rfl⟩ 3 (Or.inr (by decide))

/-! ### Sequences of submissions -/

/-- One `submitEncryptedMessage` call's arguments (the two sealed handles,
the block timestamp, and the environment-chosen oracle request id). -/
structure SubmitIn where
  content : Nat
  score : Nat
  timestamp : Nat
  reqId : Nat

/-- Runs a sequence of `submitEncryptedMessage` calls, collecting the
allocated identifiers. -/
def submitMany (s : State) : List SubmitIn → List Nat × State
  | [] => ([], s)
  | x :: xs =>
    let r := submitEncryptedMessage s x.content x.score x.timestamp x.reqId
    let rest := submitMany r.2 xs
    (r.1 :: rest.1, rest.2)

theorem submit_messageCount (s : State) (c sc ts r : Nat) :
    (submitEncryptedMessage s c sc ts r).2.messageCount = s.messageCount + 1 := rfl

theorem submit_fst (s : State) (c sc ts r : Nat) :
    (submitEncryptedMessage s c sc ts r).1 = s.messageCount + 1 := rfl

theorem submitMany_fst : ∀ (l : List SubmitIn) (s : State),
    (submitMany s l).1 = List.range' (s.messageCount + 1) l.length
  | [], _ => rfl
  | x :: xs, s => by
    simp [submitMany, List.range', submitMany_fst xs, submit_messageCount, submit_fst]

theorem submitMany_messageCount : ∀ (l : List SubmitIn) (s : State),
    (submitMany s l).2.messageCount = s.messageCount + l.length
  | [], _ => rfl
  | x :: xs, s => by
    have h := submitMany_messageCount xs
      (submitEncryptedMessage s x.content x.score x.timestamp x.reqId).2
    simp only [submitMany, h, submit_messageCount, List.length_cons]
    omega

theorem submit_preserves_old (s : State) (c sc ts r id : Nat) (h : id ≤ s.messageCount) :
    (submitEncryptedMessage s c sc ts r).2.encryptedMessages id = s.encryptedMessages id ∧
    (submitEncryptedMessage s c sc ts r).2.decryptedAlerts id = s.decryptedAlerts id := by
  have hne : id ≠ s.messageCount + 1 := by omega
  constructor <;> simp [submitEncryptedMessage, assessRisk, hne]

theorem submitMany_preserves_old : ∀ (l : List SubmitIn) (s : State) (id : Nat),
    id ≤ s.messageCount →
    (submitMany s l).2.encryptedMessages id = s.encryptedMessages id ∧
    (submitMany s l).2.decryptedAlerts id = s.decryptedAlerts id
  | [], _, _, _ => ⟨rfl, rfl⟩
  | x :: xs, s, id, h => by
    have h1 := submit_preserves_old s x.content x.score x.timestamp x.reqId id h
    have h2 := submitMany_preserves_old xs
      (submitEncryptedMessage s x.content x.score x.timestamp x.reqId).2 id
      (by rw [submit_messageCount]; omega)
    exact ⟨h2.1.trans h1.1, h2.2.trans h1.2⟩

theorem submit_stores_new (s : State) (c sc ts r : Nat) :
    (submitEncryptedMessage s c sc ts r).2.encryptedMessages (s.messageCount + 1) =
      ⟨s.messageCount + 1, c, sc, ts, false⟩ ∧
    (submitEncryptedMessage s c sc ts r).2.decryptedAlerts (s.messageCount + 1) =
      ⟨"", 0, false⟩ := by
  constructor <;> simp [submitEncryptedMessage, assessRisk]

theorem submitMany_stored : ∀ (l : List SubmitIn) (s : State) (id : Nat),
    id ∈ (submitMany s l).1 →
    ((submitMany s l).2.encryptedMessages id).isHighRisk = false ∧
    ((submitMany s l).2.encryptedMessages id).id = id ∧
    (submitMany s l).2.decryptedAlerts id = ⟨"", 0, false⟩
  | [], _, _, h => absurd h (by simp [submitMany])
  | x :: xs, s, id, h => by
    rcases List.mem_cons.1 h with h0 | hmem
    · subst h0
      have hnew := submit_stores_new s x.content x.score x.timestamp x.reqId
      have hpres := submitMany_preserves_old xs
        (submitEncryptedMessage s x.content x.score x.timestamp x.reqId).2
        (s.messageCount + 1) (by rw [submit_messageCount])
      simp only [submitMany, submit_fst]
      rw [hpres.1, hpres.2, hnew.1, hnew.2]
      exact ⟨rfl, rfl, rfl⟩
    · exact submitMany_stored xs _ id hmem

/-- C4: from deployment, every sequence of submissions yields the
identifiers `1, 2, …, n` — unique, strictly increasing, starting at 1,
never 0 — the counter advances by exactly one per submission, and every
allocated id holds a record with `isHighRisk = false` whose stored id
matches, together with the empty alert `("", 0, isDecrypted = false)`. -/
theorem submit_ids_unique_increasing (d : Nat) (inputs : List SubmitIn) :
    (submitMany (initState d) inputs).1 = List.range' 1 inputs.length ∧
    List.Pairwise (· < ·) (submitMany (initState d) inputs).1 ∧
    (submitMany (initState d) inputs).1.Nodup ∧
    0 ∉ (submitMany (initState d) inputs).1 ∧
    (submitMany (initState d) inputs).2.messageCount = inputs.length ∧
    (∀ (s : State) (c sc ts r : Nat),
      (submitEncryptedMessage s c sc ts r).1 = s.messageCount + 1 ∧
      (submitEncryptedMessage s c sc ts r).2.messageCount = s.messageCount + 1) ∧
    (∀ id ∈ (submitMany (initState d) inputs).1,
      ((submitMany (initState d) inputs).2.encryptedMessages id).isHighRisk = false ∧
      ((submitMany (initState d) inputs).2.encryptedMessages id).id = id ∧
      (submitMany (initState d) inputs).2.decryptedAlerts id = ⟨"", 0, false⟩) := by
  have hfst : (submitMany (initState d) inputs).1 = List.range' 1 inputs.length :=
    submitMany_fst inputs (initState d)
  refine ⟨hfst, ?_, ?_, ?_, ?_, fun s c sc ts r => ⟨rfl, rfl⟩, fun id hid => submitMany_stored inputs (initState d) id hid⟩
  · rw [hfst]
    exact List.pairwise_lt_range' 1 inputs.length
  · rw [hfst]
    exact List.nodup_range' 1 inputs.length
  · rw [hfst]
    simp [List.mem_range'_1]
  · have := submitMany_messageCount inputs (initState d)
    simpa [initState] using this

theorem submit_ids_unique_increasing_witness :
    (submitMany (initState 5) [⟨1, 2, 3, 4⟩, ⟨5, 6, 7, 8⟩]).1 = [1, 2] ∧
    ((submitMany (initState 5) [⟨1, 2, 3, 4⟩, ⟨5, 6, 7, 8⟩]).2.encryptedMessages 1).isHighRisk = false := by
  have h := submit_ids_unique_increasing 5 [⟨1, 2, 3, 4⟩, ⟨5, 6, 7, 8⟩]
  refine ⟨by rw [h.1]; rfl, ?_⟩
  exact (h.2.2.2.2.2.2 1 (by rw [h.1]; decide)).1
